import Mathlib

/-!
Shallow embedding of `flaker` (`src/lib.rs`): a snowflake-style 128-bit ID
generator.  Rust machine integers are modelled as `Nat` with explicit
`% 2 ^ w` at the points where the source performs wrapping arithmetic or a
narrowing cast; the two clock reads (`SystemTime::now().duration_since`) are
externalized as explicit parameters, so every operation is a pure function of
the state and the sampled time.
-/

deriving instance DecidableEq for Except

/-- Model of the error enum `FlakeError`. -/
inductive FlakeError where
  | ClockIsRunningBackwards
deriving DecidableEq, Repr

/-- Model of the enum `Endianness` (`LittleEndian` / `BigEndian`). -/
inductive Endianness where
  | LittleEndian
  | BigEndian
deriving DecidableEq, Repr

/-- Model of the struct `Flaker`.  `identifier : [u8; 6]` is a list of bytes
(length 6 in every state the code can build), `last_generated_time_ms : u64`
and `counter : u16` are naturals. -/
structure Flaker where
  identifier : List Nat
  last_generated_time_ms : Nat
  counter : Nat
deriving DecidableEq, Repr

/-- Well-formedness capturing the Rust field types: `identifier` is exactly 6
bytes each below 256 (`[u8; 6]`), the timestamp fits in a `u64` and the
counter in a `u16`. -/
def Flaker.WF (f : Flaker) : Prop :=
  f.identifier.length = 6 ∧ (∀ b ∈ f.identifier, b < 256) ∧
    f.last_generated_time_ms < 2 ^ 64 ∧ f.counter < 2 ^ 16

instance (f : Flaker) : Decidable f.WF := by
  unfold Flaker.WF; infer_instance

/-- Model of `std::time::Duration` as seen by the source: whole seconds
(`as_secs`, a `u64`) and the nanosecond remainder (`subsec_nanos`, a `u32`,
below 10^9 for real durations — the bound is not needed here). -/
structure Duration where
  secs : Nat
  nanos : Nat
deriving DecidableEq, Repr

/-- Model of `Duration::as_secs`. -/
def Duration.as_secs (d : Duration) : Nat := d.secs

/-- Model of `Duration::subsec_nanos`. -/
def Duration.subsec_nanos (d : Duration) : Nat := d.nanos

/-- Model of `std::time::SystemTimeError`: its `duration()` is the magnitude
of the negative offset from the anchor time. -/
structure SystemTimeError where
  duration : Duration
deriving DecidableEq, Repr

/-- Model of `Flaker::current_time_in_ms`.  The outcome of
`SystemTime::now().duration_since(UNIX_EPOCH)` is the explicit argument `r`;
`Ok(dur)` keeps the duration, `Err(err)` recovers `err.duration()`.  The
millisecond count is computed in `u64` arithmetic
(`as_secs() * 1000 + (subsec_nanos() / 1000_000) as u64`), hence the
`% 2 ^ 64`. -/
def Flaker.current_time_in_ms (r : Except SystemTimeError Duration) : Nat :=
  let now_ts := match r with
    | .ok dur => dur
    | .error err => err.duration
  (now_ts.as_secs * 1000 + now_ts.subsec_nanos / 1000000) % 2 ^ 64

/-- Model of `Flaker::new`.  The Rust parameter type `[u8; 6]` only admits
identifiers of exactly 6 bytes, and the body additionally panics when
`identifier.len() < 6`; over arbitrary byte lists construction therefore
produces an instance exactly for length-6 lists, and `none` models the
rejection.  A `BigEndian` identifier is reversed before being stored.  The
clock read `Flaker::current_time_in_ms()` made at construction is passed in
as `now`. -/
def Flaker.new (identifier : List Nat) (endian : Endianness) (now : Nat) :
    Option Flaker :=
  if identifier.length = 6 then
    let identifier := if endian = Endianness.BigEndian then
        identifier.reverse
      else identifier
    some { identifier := identifier,
           last_generated_time_ms := now,
           counter := 0 }
  else none

/-- Model of `Flaker::new_from_identifier`.  The body copies the argument
into a `[u8; 6]` with `clone_from_slice`, which panics unless the source
slice has exactly the destination's length 6 (`none` models the panic), then
delegates to `new` with `Endianness::LittleEndian`. -/
def Flaker.new_from_identifier (identifier : List Nat) (now : Nat) :
    Option Flaker :=
  if identifier.length = 6 then
    Flaker.new identifier Endianness.LittleEndian now
  else none

/-- Little-endian byte decomposition, `w` bytes, low byte first.  `leBytes 8`
models what `wtr.write_u64::<LittleEndian>(t)` leaves in the buffer `wtr`. -/
def leBytes : Nat → Nat → List Nat
  | 0, _ => []
  | w + 1, t => t % 256 :: leBytes w (t / 256)

/-- Little-endian recomposition: the value of a byte buffer read as in
`BigUint::from_bytes_le`. -/
def fromBytesLe : List Nat → Nat
  | [] => 0
  | b :: bs => b + 256 * fromBytesLe bs

/-- The 16-byte buffer `bytes` built by `Flaker::construct_id`:
`bytes[0] = counter as u8`, `bytes[1] = (counter >> 8) as u8`, `bytes[2..8]`
the identifier bytes in stored order, `bytes[8..16]` the timestamp written as
a little-endian `u64`.  (The identifier loop writes positions `2 .. 2+len`;
in every constructible state the identifier has length 6, making this list
the exact buffer.) -/
def Flaker.construct_id_bytes (f : Flaker) : List Nat :=
  f.counter % 256 :: f.counter / 256 % 256 ::
    (f.identifier ++ leBytes 8 f.last_generated_time_ms)

/-- Model of `Flaker::construct_id`: the buffer interpreted with
`BigUint::from_bytes_le`. -/
def Flaker.construct_id (f : Flaker) : Nat :=
  fromBytesLe f.construct_id_bytes

/-- Model of `Flaker::update`, with the sampled time
`Flaker::current_time_in_ms()` passed in as `T`.  The result pairs the
returned `Result<(), FlakeError>` with the state of `self` after the call
(the early return on a backwards clock leaves the state untouched).
`self.counter += 1` is `u16` wrapping arithmetic, hence `% 2 ^ 16`. -/
def Flaker.update (f : Flaker) (T : Nat) : Except FlakeError Unit × Flaker :=
  if f.last_generated_time_ms > T then
    (Except.error FlakeError.ClockIsRunningBackwards, f)
  else
    let f := if f.last_generated_time_ms < T then
        { f with counter := 0 }
      else
        { f with counter := (f.counter + 1) % 2 ^ 16 }
    (Except.ok (), { f with last_generated_time_ms := T })

/-- Model of `Flaker::get_id`: `self.update().map(|_| self.construct_id())`.
The `Result` returned by `update` is mapped, with `construct_id` reading the
state `self` as `update` left it; the pair again carries that state of
`self` after the call. -/
def Flaker.get_id (f : Flaker) (T : Nat) : Except FlakeError Nat × Flaker :=
  ((f.update T).1.map (fun _ => (f.update T).2.construct_id), (f.update T).2)

/-! ### Helper lemmas about little-endian byte buffers -/

theorem fromBytesLe_append (xs ys : List Nat) :
    fromBytesLe (xs ++ ys) =
      fromBytesLe xs + 256 ^ xs.length * fromBytesLe ys := by
  induction xs with
  | nil => simp [fromBytesLe]
  | cons b bs ih =>
      simp [fromBytesLe, ih, List.length_cons, pow_succ]
      ring

theorem fromBytesLe_lt (bs : List Nat) (h : ∀ b ∈ bs, b < 256) :
    fromBytesLe bs < 256 ^ bs.length := by
  induction bs with
  | nil => simp [fromBytesLe]
  | cons b tl ih =>
      have hb : b < 256 := h b (List.mem_cons_self _ _)
      have htl : fromBytesLe tl < 256 ^ tl.length :=
        ih (fun x hx => h x (List.mem_cons_of_mem _ hx))
      simp only [fromBytesLe, List.length_cons, pow_succ]
      calc b + 256 * fromBytesLe tl
      ≤ 255 + 256 * fromBytesLe tl := by omega
      _ < 256 * (fromBytesLe tl + 1) := by omega
      _ ≤ 256 * 256 ^ tl.length := by
        exact Nat.mul_le_mul_left _ (by omega)
      _ = 256 ^ tl.length * 256 := by ring

theorem fromBytesLe_digit (bs : List Nat) (h : ∀ b ∈ bs, b < 256)
    (i : Nat) : fromBytesLe bs / 256 ^ i % 256 = bs.getD i 0 := by
  induction bs generalizing i with
  | nil => simp [fromBytesLe]
  | cons b tl ih =>
      have hb : b < 256 := h b (List.mem_cons_self _ _)
      have htl : ∀ x ∈ tl, x < 256 := fun x hx => h x (List.mem_cons_of_mem _ hx)
      cases i with
      | zero =>
          simp [fromBytesLe, Nat.add_mul_mod_self_left, Nat.mod_eq_of_lt hb]
      | succ i =>
          have hdiv : (b + 256 * fromBytesLe tl) / 256 = fromBytesLe tl := by
            omega
          simp only [fromBytesLe, List.getD_cons_succ, pow_succ]
          rw [Nat.mul_comm (256 ^ i) 256, ← Nat.div_div_eq_div_mul, hdiv]
          exact ih htl i

theorem leBytes_length (w t : Nat) : (leBytes w t).length = w := by
  induction w generalizing t with
  | zero => simp [leBytes]
  | succ w ih => simp [leBytes, ih]

theorem leBytes_lt (w t : Nat) : ∀ b ∈ leBytes w t, b < 256 := by
  induction w generalizing t with
  | zero => simp [leBytes]
  | succ w ih =>
      intro b hb
      simp only [leBytes, List.mem_cons] at hb
      rcases hb with h | h
      · omega
      · exact ih _ b h

theorem fromBytesLe_leBytes (w t : Nat) :
    fromBytesLe (leBytes w t) = t % 256 ^ w := by
  induction w generalizing t with
  | zero => simp [leBytes, fromBytesLe, Nat.mod_one]
  | succ w ih =>
      simp only [leBytes, fromBytesLe, ih]
      rw [pow_succ, Nat.mul_comm (256 ^ w) 256, Nat.mod_mul]

theorem leBytes_getD (w t i : Nat) (h : i < w) :
    (leBytes w t).getD i 0 = t / 256 ^ i % 256 := by
  induction w generalizing t i with
  | zero => omega
  | succ w ih =>
      cases i with
      | zero => simp [leBytes]
      | succ i =>
          simp only [leBytes, List.getD_cons_succ]
          rw [ih (t / 256) i (by omega), pow_succ,
            Nat.mul_comm (256 ^ i) 256, ← Nat.div_div_eq_div_mul]

/-! ### Inversion and preservation lemmas for the state update -/

theorem Flaker.update_backwards (f : Flaker) (T : Nat)
    (h : T < f.last_generated_time_ms) :
    f.update T = (Except.error FlakeError.ClockIsRunningBackwards, f) := by
  unfold Flaker.update
  rw [if_pos (by omega)]

theorem Flaker.update_forwards (f : Flaker) (T : Nat)
    (h : f.last_generated_time_ms ≤ T) :
    f.update T = (Except.ok (),
      { identifier := f.identifier, last_generated_time_ms := T,
        counter := if f.last_generated_time_ms < T then 0
          else (f.counter + 1) % 2 ^ 16 }) := by
  unfold Flaker.update
  rw [if_neg (by omega)]
  by_cases hlt : f.last_generated_time_ms < T
  · rw [if_pos hlt, if_pos hlt]
  · rw [if_neg hlt, if_neg hlt]

theorem Flaker.update_ok_inv (f f' : Flaker) (T : Nat) (u : Unit)
    (h : f.update T = (Except.ok u, f')) :
    f.last_generated_time_ms ≤ T ∧
      f' = { identifier := f.identifier,
             last_generated_time_ms := T,
             counter := if f.last_generated_time_ms < T then 0
               else (f.counter + 1) % 2 ^ 16 } := by
  by_cases hb : T < f.last_generated_time_ms
  · rw [Flaker.update_backwards f T hb] at h
    simp at h
  · have hle : f.last_generated_time_ms ≤ T := by omega
    rw [Flaker.update_forwards f T hle] at h
    have h2 := congrArg Prod.snd h
    simp only at h2
    exact ⟨hle, h2.symm⟩

theorem Flaker.get_id_ok_inv (f f' : Flaker) (T n : Nat)
    (h : f.get_id T = (Except.ok n, f')) :
    f.update T = (Except.ok (), f') ∧ n = f'.construct_id := by
  unfold Flaker.get_id at h
  have h1 := congrArg Prod.fst h
  have h2 := congrArg Prod.snd h
  simp only at h1 h2
  rcases hu : (f.update T).1 with e | u
  · rw [hu] at h1
    simp [Except.map] at h1
  · constructor
    · rw [Prod.ext_iff, hu, h2]
      exact ⟨rfl, rfl⟩
    · rw [hu] at h1
      simp only [Except.map, Except.ok.injEq] at h1
      rw [← h1, h2]

/-! ### Byte-level facts about the packed buffer -/

theorem Flaker.construct_id_bytes_lt (f : Flaker) (h : f.WF) :
    ∀ b ∈ f.construct_id_bytes, b < 256 := by
  rcases h with ⟨-, hbytes, -, -⟩
  intro b hb
  simp only [Flaker.construct_id_bytes, List.mem_cons, List.mem_append] at hb
  rcases hb with h | h | h | h
  · omega
  · omega
  · exact hbytes b h
  · exact leBytes_lt 8 f.last_generated_time_ms b h

theorem Flaker.construct_id_digit (f : Flaker) (h : f.WF) (i : Nat) :
    f.construct_id / 256 ^ i % 256 = f.construct_id_bytes.getD i 0 :=
  fromBytesLe_digit f.construct_id_bytes (f.construct_id_bytes_lt h) i

theorem exists_six_bytes {l : List Nat} (h : l.length = 6) :
    ∃ a b c d e g, l = [a, b, c, d, e, g] := by
  rcases l with - | ⟨a, - | ⟨b, - | ⟨c, - | ⟨d, - | ⟨e, - | ⟨g, - | ⟨x, tl⟩⟩⟩⟩⟩⟩⟩ <;>
    simp_all

theorem Flaker.construct_id_bytes_getD_identifier (f : Flaker)
    (h6 : f.identifier.length = 6) (i : Nat) (hi : i < 6) :
    f.construct_id_bytes.getD (2 + i) 0 = f.identifier.getD i 0 := by
  obtain ⟨a, b, c, d, e, g, hid⟩ := exists_six_bytes h6
  unfold Flaker.construct_id_bytes
  rw [hid]
  interval_cases i <;> rfl

theorem Flaker.construct_id_bytes_getD_time (f : Flaker)
    (h6 : f.identifier.length = 6) (i : Nat) (hi : i < 8) :
    f.construct_id_bytes.getD (8 + i) 0 =
      f.last_generated_time_ms / 256 ^ i % 256 := by
  obtain ⟨a, b, c, d, e, g, hid⟩ := exists_six_bytes h6
  unfold Flaker.construct_id_bytes
  rw [hid]
  interval_cases i <;> simp [leBytes, List.getD, Nat.div_div_eq_div_mul]

theorem Flaker.construct_id_closed_form (f : Flaker)
    (h6 : f.identifier.length = 6) :
    f.construct_id = f.counter % 2 ^ 16 +
      2 ^ 16 * (fromBytesLe f.identifier +
        2 ^ 48 * (f.last_generated_time_ms % 2 ^ 64)) := by
  unfold Flaker.construct_id Flaker.construct_id_bytes
  simp only [fromBytesLe, fromBytesLe_append, fromBytesLe_leBytes, h6]
  have hc : f.counter % 256 + 256 * (f.counter / 256 % 256) =
      f.counter % 2 ^ 16 := by
    rw [show (2 : Nat) ^ 16 = 256 * 256 from rfl, Nat.mod_mul]
  norm_num
  omega

theorem Flaker.update_WF (f : Flaker) (T : Nat) (hwf : f.WF)
    (hT : T < 2 ^ 64) : (f.update T).2.WF := by
  by_cases hb : T < f.last_generated_time_ms
  · rw [Flaker.update_backwards f T hb]
    exact hwf
  · rw [Flaker.update_forwards f T (by omega)]
    rcases hwf with ⟨h1, h2, h3, h4⟩
    refine ⟨h1, h2, hT, ?_⟩
    by_cases hlt : f.last_generated_time_ms < T
    · simp only [if_pos hlt]
      omega
    · simp only [if_neg hlt]
      exact Nat.mod_lt _ (by omega)

/-! ### The claims -/

/-- Claim C2: for every well-formed Flaker state, the ID produced by
`construct_id`, serialized as 16 bytes least-significant-byte-first, has
bytes 0–1 equal to the counter (low byte first), bytes 2–7 equal to the 6
stored identifier bytes in stored order, and bytes 8–15 equal to
`last_generated_time_ms` as a little-endian 64-bit integer; the returned
128-bit value equals that 16-byte buffer interpreted as a little-endian
unsigned integer. -/
theorem construct_id_byte_layout (f : Flaker) (h : f.WF) :
    f.construct_id % 256 = f.counter % 256 ∧
    f.construct_id / 256 % 256 = f.counter / 256 % 256 ∧
    (∀ i, i < 6 →
      f.construct_id / 256 ^ (2 + i) % 256 = f.identifier.getD i 0) ∧
    (∀ i, i < 8 →
      f.construct_id / 256 ^ (8 + i) % 256 =
        f.last_generated_time_ms / 256 ^ i % 256) ∧
    f.construct_id = fromBytesLe f.construct_id_bytes := by
  refine ⟨?_, ?_, ?_, ?_, rfl⟩
  · have h0 := Flaker.construct_id_digit f h 0
    simpa [Flaker.construct_id_bytes] using h0
  · have h1 := Flaker.construct_id_digit f h 1
    simpa [Flaker.construct_id_bytes] using h1
  · intro i hi
    rw [Flaker.construct_id_digit f h (2 + i),
      Flaker.construct_id_bytes_getD_identifier f h.1 i hi]
  · intro i hi
    rw [Flaker.construct_id_digit f h (8 + i),
      Flaker.construct_id_bytes_getD_time f h.1 i hi]

/-- Witness for C2 at the state with identifier `[10,20,30,40,50,60]`,
timestamp 123456 and counter 513. -/
theorem construct_id_byte_layout_witness :
    Flaker.construct_id ⟨[10, 20, 30, 40, 50, 60], 123456, 513⟩ % 256 =
      513 % 256 ∧
    Flaker.construct_id ⟨[10, 20, 30, 40, 50, 60], 123456, 513⟩ / 256 % 256 =
      513 / 256 % 256 ∧
    Flaker.construct_id ⟨[10, 20, 30, 40, 50, 60], 123456, 513⟩ /
        256 ^ (2 + 3) % 256 = [10, 20, 30, 40, 50, 60].getD 3 0 ∧
    Flaker.construct_id ⟨[10, 20, 30, 40, 50, 60], 123456, 513⟩ /
        256 ^ (8 + 1) % 256 = 123456 / 256 ^ 1 % 256 :=
  ⟨(construct_id_byte_layout _ (by decide)).1,
   (construct_id_byte_layout _ (by decide)).2.1,
   (construct_id_byte_layout _ (by decide)).2.2.1 3 (by decide),
   (construct_id_byte_layout _ (by decide)).2.2.2.1 1 (by decide)⟩

/-- Claim C3: for every Flaker state and sampled time `T`, if
`last_generated_time_ms > T` then `get_id()` returns the error
`ClockIsRunningBackwards`, produces no ID, and leaves all three state fields
unchanged (the post-call state is exactly `f`), so that a later call with
`T' ≥ last_generated_time_ms` succeeds. -/
theorem get_id_clock_backwards (f : Flaker) (T : Nat)
    (h : T < f.last_generated_time_ms) :
    f.get_id T = (Except.error FlakeError.ClockIsRunningBackwards, f) ∧
    ∀ T', f.last_generated_time_ms ≤ T' →
      (f.get_id T').1 = Except.ok ((f.update T').2).construct_id := by
  constructor
  · unfold Flaker.get_id
    rw [Flaker.update_backwards f T h]
    rfl
  · intro T' h'
    unfold Flaker.get_id
    rw [Flaker.update_forwards f T' h']
    rfl

/-- Witness for C3: at state `⟨[0,1,2,3,4,5], 10, 7⟩` a read of time 5 is
rejected without touching the state, and a later read of time 12 succeeds. -/
theorem get_id_clock_backwards_witness :
    Flaker.get_id ⟨[0, 1, 2, 3, 4, 5], 10, 7⟩ 5 =
      (Except.error FlakeError.ClockIsRunningBackwards,
        ⟨[0, 1, 2, 3, 4, 5], 10, 7⟩) ∧
    (Flaker.get_id ⟨[0, 1, 2, 3, 4, 5], 10, 7⟩ 12).1 =
      Except.ok ((Flaker.update ⟨[0, 1, 2, 3, 4, 5], 10, 7⟩ 12).2).construct_id :=
  ⟨(get_id_clock_backwards _ 5 (by decide)).1,
   (get_id_clock_backwards _ 5 (by decide)).2 12 (by decide)⟩

/-- Claim C4: for every Flaker state and sampled time `T` with
`last_generated_time_ms ≤ T`, a successful update sets the counter to 0 when
`last_generated_time_ms < T`, then sets `last_generated_time_ms` to `T`
unconditionally; consequently `last_generated_time_ms` never decreases
across successful calls. -/
theorem update_advances_time (f : Flaker) (T : Nat)
    (h : f.last_generated_time_ms ≤ T) :
    (f.update T).1 = Except.ok () ∧
    (f.update T).2.last_generated_time_ms = T ∧
    (f.last_generated_time_ms < T → (f.update T).2.counter = 0) ∧
    f.last_generated_time_ms ≤ (f.update T).2.last_generated_time_ms := by
  rw [Flaker.update_forwards f T h]
  refine ⟨rfl, rfl, ?_, h⟩
  intro hlt
  simp [hlt]

/-- Witness for C4: at state `⟨[0,1,2,3,4,5], 10, 7⟩` a read of time 25
succeeds, resets the counter and advances the stored timestamp to 25. -/
theorem update_advances_time_witness :
    (Flaker.update ⟨[0, 1, 2, 3, 4, 5], 10, 7⟩ 25).1 = Except.ok () ∧
    (Flaker.update ⟨[0, 1, 2, 3, 4, 5], 10, 7⟩ 25).2.last_generated_time_ms = 25 ∧
    (Flaker.update ⟨[0, 1, 2, 3, 4, 5], 10, 7⟩ 25).2.counter = 0 :=
  ⟨(update_advances_time _ 25 (by decide)).1,
   (update_advances_time _ 25 (by decide)).2.1,
   (update_advances_time _ 25 (by decide)).2.2.1 (by decide)⟩

/-- Claim C5: for every 6-byte identifier `[a,b,c,d,e,g]`, constructing with
`BigEndian` stores the same internal identifier bytes (hence the same packed
bytes 2–7 in any generated ID) as constructing with the reversed list and
`LittleEndian`: `BigEndian` reverses the bytes before storing, while
`LittleEndian` stores them as given. -/
theorem new_endianness_normalization (a b c d e g now : Nat) :
    Flaker.new [a, b, c, d, e, g] Endianness.BigEndian now =
      Flaker.new [g, e, d, c, b, a] Endianness.LittleEndian now ∧
    (Flaker.new [a, b, c, d, e, g] Endianness.BigEndian now).map
      Flaker.identifier = some [g, e, d, c, b, a] ∧
    (Flaker.new [a, b, c, d, e, g] Endianness.LittleEndian now).map
      Flaker.identifier = some [a, b, c, d, e, g] :=
  ⟨rfl, rfl, rfl⟩

/-- Claim C6: construction via `new` produces no instance whenever the
supplied identifier is not exactly 6 bytes (the parameter type `[u8; 6]`
plus the in-body length guard); with exactly 6 bytes it succeeds and
initializes the counter to 0 and `last_generated_time_ms` to the sampled
construction-time clock value. -/
theorem new_length_guard (id : List Nat) (e : Endianness) (now : Nat) :
    (id.length ≠ 6 → Flaker.new id e now = none) ∧
    (id.length = 6 → Flaker.new id e now =
      some { identifier := if e = Endianness.BigEndian then id.reverse else id,
             last_generated_time_ms := now,
             counter := 0 }) := by
  constructor
  · intro h
    unfold Flaker.new
    rw [if_neg h]
  · intro h
    unfold Flaker.new
    rw [if_pos h]

/-- Witness for C6: a 3-byte identifier is rejected; a 6-byte identifier
yields a Flaker with counter 0 and timestamp 42. -/
theorem new_length_guard_witness :
    Flaker.new [1, 2, 3] Endianness.LittleEndian 42 = none ∧
    Flaker.new [0, 1, 2, 3, 4, 5] Endianness.LittleEndian 42 =
      some ⟨[0, 1, 2, 3, 4, 5], 42, 0⟩ :=
  ⟨(new_length_guard [1, 2, 3] Endianness.LittleEndian 42).1 (by decide),
   (new_length_guard [0, 1, 2, 3, 4, 5] Endianness.LittleEndian 42).2 rfl⟩

/-- Counterexample for C7 as stated: on the 7-byte sequence
`[0,1,2,3,4,5,6]`, `new_from_identifier` panics in `clone_from_slice`
(source and destination lengths differ) and produces no Flaker, while the
claim demands it equal `new` applied to the first 6 bytes, which succeeds. -/
theorem new_from_identifier_seven_bytes :
    Flaker.new_from_identifier [0, 1, 2, 3, 4, 5, 6] 0 = none ∧
    Flaker.new ([0, 1, 2, 3, 4, 5, 6].take 6) Endianness.LittleEndian 0 =
      some ⟨[0, 1, 2, 3, 4, 5], 0, 0⟩ := by
  constructor
  · rfl
  · rfl

/-- Claim C7 (amended): for every byte sequence of exactly 6 bytes,
`new_from_identifier` copies the bytes — which are the first 6 bytes of the
sequence — into the fixed-size array and returns the same Flaker as `new`
with `LittleEndian`.  (For longer sequences `clone_from_slice` panics, see
the counterexample.) -/
theorem new_from_identifier_six_bytes (id : List Nat) (now : Nat)
    (h : id.length = 6) :
    Flaker.new_from_identifier id now =
      Flaker.new (id.take 6) Endianness.LittleEndian now ∧
    Flaker.new_from_identifier id now =
      Flaker.new id Endianness.LittleEndian now := by
  have htake : id.take 6 = id := List.take_of_length_le (by omega)
  rw [htake]
  unfold Flaker.new_from_identifier
  rw [if_pos h]
  exact ⟨rfl, rfl⟩

/-- Witness for the amended C7 at the 6-byte sequence `[9,8,7,6,5,4]`. -/
theorem new_from_identifier_six_bytes_witness :
    Flaker.new_from_identifier [9, 8, 7, 6, 5, 4] 3 =
      Flaker.new ([9, 8, 7, 6, 5, 4].take 6) Endianness.LittleEndian 3 ∧
    Flaker.new_from_identifier [9, 8, 7, 6, 5, 4] 3 =
      Flaker.new [9, 8, 7, 6, 5, 4] Endianness.LittleEndian 3 :=
  new_from_identifier_six_bytes [9, 8, 7, 6, 5, 4] 3 rfl

/-- Claim C8: the internal current-time operation returns
`seconds * 1000 + nanoseconds_within_second / 1_000_000` for the sampled
clock offset, and when the clock read reports a time before the epoch it
does not fail but feeds the magnitude (duration) of the negative offset into
the same computation.  (The hypothesis is the `u64` range of the Rust
arithmetic.) -/
theorem current_time_in_ms_formula (d : Duration)
    (h : d.secs * 1000 + d.nanos / 1000000 < 2 ^ 64) :
    Flaker.current_time_in_ms (Except.ok d) =
      d.secs * 1000 + d.nanos / 1000000 ∧
    Flaker.current_time_in_ms (Except.error ⟨d⟩) =
      d.secs * 1000 + d.nanos / 1000000 := by
  unfold Flaker.current_time_in_ms
  constructor <;> exact Nat.mod_eq_of_lt h

/-- Witness for C8 at offset 1700000000 s + 123456789 ns, taken both as a
successful clock read and as the magnitude of a pre-epoch error. -/
theorem current_time_in_ms_formula_witness :
    Flaker.current_time_in_ms (Except.ok ⟨1700000000, 123456789⟩) =
      1700000000 * 1000 + 123456789 / 1000000 ∧
    Flaker.current_time_in_ms (Except.error ⟨⟨1700000000, 123456789⟩⟩) =
      1700000000 * 1000 + 123456789 / 1000000 :=
  current_time_in_ms_formula ⟨1700000000, 123456789⟩ (by norm_num)

/-- Claim C9: when the sampled time `T` equals `last_generated_time_ms`, a
successful update increments the 16-bit counter by 1, and at the maximum
65535 the increment wraps to 0 per unsigned 16-bit arithmetic instead of
failing. -/
theorem update_same_millisecond (f : Flaker) (T : Nat)
    (h : f.last_generated_time_ms = T) :
    (f.update T).1 = Except.ok () ∧
    (f.update T).2.counter = (f.counter + 1) % 2 ^ 16 ∧
    (f.counter + 1 < 2 ^ 16 → (f.update T).2.counter = f.counter + 1) ∧
    (f.counter = 2 ^ 16 - 1 → (f.update T).2.counter = 0) := by
  rw [Flaker.update_forwards f T (by omega)]
  have hnlt : ¬ f.last_generated_time_ms < T := by omega
  refine ⟨rfl, by simp [hnlt], ?_, ?_⟩
  · intro h'
    simp only [if_neg hnlt]
    omega
  · intro h'
    simp only [if_neg hnlt]
    omega

/-- Witness for C9: at counter 7 the update yields counter 8; at the
maximum counter 65535 the update wraps the counter to 0. -/
theorem update_same_millisecond_witness :
    (Flaker.update ⟨[0, 1, 2, 3, 4, 5], 50, 7⟩ 50).2.counter = 7 + 1 ∧
    (Flaker.update ⟨[0, 1, 2, 3, 4, 5], 50, 65535⟩ 50).2.counter =
      (65535 + 1) % 2 ^ 16 ∧
    (Flaker.update ⟨[0, 1, 2, 3, 4, 5], 50, 65535⟩ 50).2.counter = 0 :=
  ⟨(update_same_millisecond ⟨[0, 1, 2, 3, 4, 5], 50, 7⟩ 50 rfl).2.2.1 (by decide),
   (update_same_millisecond ⟨[0, 1, 2, 3, 4, 5], 50, 65535⟩ 50 rfl).2.1,
   (update_same_millisecond ⟨[0, 1, 2, 3, 4, 5], 50, 65535⟩ 50 rfl).2.2.2
     (by decide)⟩

/-- Claim C10: no call to `get_id` ever modifies the identifier field; on an
error no field changes; and on a success from a well-formed state the
identifier bytes stored at construction appear unchanged in bytes 2–7 of the
produced ID. -/
theorem get_id_identifier_frame (f : Flaker) (T : Nat) :
    (f.get_id T).2.identifier = f.identifier ∧
    (∀ e, (f.get_id T).1 = Except.error e → (f.get_id T).2 = f) ∧
    (f.WF → T < 2 ^ 64 → ∀ n f', f.get_id T = (Except.ok n, f') →
      ∀ i, i < 6 → n / 256 ^ (2 + i) % 256 = f.identifier.getD i 0) := by
  refine ⟨?_, ?_, ?_⟩
  · by_cases hb : T < f.last_generated_time_ms
    · unfold Flaker.get_id
      rw [Flaker.update_backwards f T hb]
    · unfold Flaker.get_id
      rw [Flaker.update_forwards f T (by omega)]
  · intro e he
    by_cases hb : T < f.last_generated_time_ms
    · unfold Flaker.get_id
      rw [Flaker.update_backwards f T hb]
    · unfold Flaker.get_id at he
      rw [Flaker.update_forwards f T (by omega)] at he
      simp [Except.map] at he
  · intro hwf hT n f' hok i hi
    obtain ⟨hu, hn⟩ := Flaker.get_id_ok_inv f f' T n hok
    have hwf' : f'.WF := by
      have := Flaker.update_WF f T hwf hT
      rw [hu] at this
      exact this
    have hid : f'.identifier = f.identifier := by
      obtain ⟨-, hf'⟩ := Flaker.update_ok_inv f f' T () hu
      rw [hf']
    rw [hn, Flaker.construct_id_digit f' hwf' (2 + i),
      Flaker.construct_id_bytes_getD_identifier f' hwf'.1 i hi, hid]

/-- Witness for C10: a successful call at state
`⟨[7,8,9,10,11,12], 30, 4⟩` and time 30 keeps the identifier, and byte 2 of
the produced ID is the first identifier byte; a failed call at time 3 leaves
the whole state unchanged. -/
theorem get_id_identifier_frame_witness :
    (Flaker.get_id ⟨[7, 8, 9, 10, 11, 12], 30, 4⟩ 30).2.identifier =
      [7, 8, 9, 10, 11, 12] ∧
    (Flaker.get_id ⟨[7, 8, 9, 10, 11, 12], 30, 4⟩ 3).2 =
      ⟨[7, 8, 9, 10, 11, 12], 30, 4⟩ ∧
    Flaker.construct_id ⟨[7, 8, 9, 10, 11, 12], 30, 5⟩ / 256 ^ (2 + 0) % 256 =
      [7, 8, 9, 10, 11, 12].getD 0 0 :=
  ⟨(get_id_identifier_frame ⟨[7, 8, 9, 10, 11, 12], 30, 4⟩ 30).1,
   (get_id_identifier_frame ⟨[7, 8, 9, 10, 11, 12], 30, 4⟩ 3).2.1
     FlakeError.ClockIsRunningBackwards (by decide),
   (get_id_identifier_frame ⟨[7, 8, 9, 10, 11, 12], 30, 4⟩ 30).2.2
     (by decide) (by decide)
     (Flaker.construct_id ⟨[7, 8, 9, 10, 11, 12], 30, 5⟩)
     ⟨[7, 8, 9, 10, 11, 12], 30, 5⟩ (by decide) 0 (by decide)⟩

/-- Counterexample for C1 as stated: from the well-formed state with counter
65534, two back-to-back successful `get_id` calls in the same sampled
millisecond 1000 return first the ID of counter 65535 and then — the `u16`
counter wrapping to 0 — a strictly SMALLER ID, violating strict growth. -/
theorem get_id_monotonicity_wrap_counterexample :
    Flaker.WF ⟨[0, 1, 2, 3, 4, 5], 1000, 65534⟩ ∧
    Flaker.get_id ⟨[0, 1, 2, 3, 4, 5], 1000, 65534⟩ 1000 =
      (Except.ok (Flaker.construct_id ⟨[0, 1, 2, 3, 4, 5], 1000, 65535⟩),
        ⟨[0, 1, 2, 3, 4, 5], 1000, 65535⟩) ∧
    Flaker.get_id ⟨[0, 1, 2, 3, 4, 5], 1000, 65535⟩ 1000 =
      (Except.ok (Flaker.construct_id ⟨[0, 1, 2, 3, 4, 5], 1000, 0⟩),
        ⟨[0, 1, 2, 3, 4, 5], 1000, 0⟩) ∧
    Flaker.construct_id ⟨[0, 1, 2, 3, 4, 5], 1000, 0⟩ <
      Flaker.construct_id ⟨[0, 1, 2, 3, 4, 5], 1000, 65535⟩ :=
  ⟨by decide, by decide, by decide, by decide⟩

/-- Claim C1 (amended): for a single well-formed Flaker instance and `u64`
sampled times, two successive successfully-returned IDs are strictly
increasing as 128-bit unsigned integers — in particular for back-to-back
calls in the same sampled millisecond — PROVIDED the second call does not
wrap the 16-bit counter (i.e. the call is not in the same millisecond with
the counter already at 65535). -/
theorem get_id_strictly_monotone (f f1 f2 : Flaker) (T1 T2 n1 n2 : Nat)
    (hwf : f.WF) (hT1 : T1 < 2 ^ 64) (hT2 : T2 < 2 ^ 64)
    (e1 : f.get_id T1 = (Except.ok n1, f1))
    (e2 : f1.get_id T2 = (Except.ok n2, f2))
    (hnw : ¬(T2 = f1.last_generated_time_ms ∧ f1.counter = 2 ^ 16 - 1)) :
    n1 < n2 := by
  obtain ⟨u1, hn1⟩ := Flaker.get_id_ok_inv f f1 T1 n1 e1
  obtain ⟨u2, hn2⟩ := Flaker.get_id_ok_inv f1 f2 T2 n2 e2
  obtain ⟨hle1, hf1⟩ := Flaker.update_ok_inv f f1 T1 () u1
  obtain ⟨hle2, hf2⟩ := Flaker.update_ok_inv f1 f2 T2 () u2
  have h6 : f.identifier.length = 6 := hwf.1
  have hid1 : f1.identifier = f.identifier := by rw [hf1]
  have ht1 : f1.last_generated_time_ms = T1 := by rw [hf1]
  have hc1 : f1.counter < 2 ^ 16 := by
    rw [hf1]
    dsimp only
    split <;> omega
  have hid2 : f2.identifier = f.identifier := by
    rw [hf2]
    exact hid1
  have ht2 : f2.last_generated_time_ms = T2 := by rw [hf2]
  have h61 : f1.identifier.length = 6 := by rw [hid1]; exact h6
  have h62 : f2.identifier.length = 6 := by rw [hid2]; exact h6
  rw [ht1] at hle2
  have key1 : n1 = f1.counter +
      2 ^ 16 * (fromBytesLe f.identifier + 2 ^ 48 * T1) := by
    rw [hn1, Flaker.construct_id_closed_form f1 h61, hid1, ht1,
      Nat.mod_eq_of_lt hT1, Nat.mod_eq_of_lt hc1]
  have hc2 : f2.counter =
      if T1 < T2 then 0 else (f1.counter + 1) % 2 ^ 16 := by
    rw [hf2]
    dsimp only
    rw [ht1]
  have hc2lt : f2.counter < 2 ^ 16 := by
    rw [hc2]
    split <;> omega
  have key2 : n2 = f2.counter +
      2 ^ 16 * (fromBytesLe f.identifier + 2 ^ 48 * T2) := by
    rw [hn2, Flaker.construct_id_closed_form f2 h62, hid2, ht2,
      Nat.mod_eq_of_lt hT2, Nat.mod_eq_of_lt hc2lt]
  rcases Nat.lt_or_ge T1 T2 with hlt | hge
  · have hz : f2.counter = 0 := by rw [hc2, if_pos hlt]
    rw [key1, key2, hz]
    have hI : 0 ≤ fromBytesLe f.identifier := Nat.zero_le _
    norm_num
    omega
  · have heq : T1 = T2 := by omega
    have hcne : f1.counter ≠ 2 ^ 16 - 1 := by
      intro hc
      exact hnw ⟨by omega, hc⟩
    have hsucc : f2.counter = f1.counter + 1 := by
      rw [hc2, if_neg (by omega)]
      omega
    rw [key1, key2, hsucc, heq]
    omega

/-- Witness for the amended C1: from state `⟨[0,1,2,3,4,5], 100, 3⟩`, a call
at time 100 (same millisecond, counter 3 → 4) followed by a call at time 101
(fresh millisecond, counter → 0) returns strictly increasing IDs. -/
theorem get_id_strictly_monotone_witness :
    Flaker.construct_id ⟨[0, 1, 2, 3, 4, 5], 100, 4⟩ <
      Flaker.construct_id ⟨[0, 1, 2, 3, 4, 5], 101, 0⟩ :=
  get_id_strictly_monotone
    ⟨[0, 1, 2, 3, 4, 5], 100, 3⟩
    ⟨[0, 1, 2, 3, 4, 5], 100, 4⟩
    ⟨[0, 1, 2, 3, 4, 5], 101, 0⟩
    100 101
    (Flaker.construct_id ⟨[0, 1, 2, 3, 4, 5], 100, 4⟩)
    (Flaker.construct_id ⟨[0, 1, 2, 3, 4, 5], 101, 0⟩)
    (by decide) (by decide) (by decide) (by decide) (by decide) (by decide)
